import Mathlib

/-!
Shallow embedding of the svsh Supervisor layer: the shared service-status
model (pkg/svsh/svsh.go), and the Runit and S6 suite adapters (status
parsing, signal translation, log resolution, rescan).  External effects
(subprocess execution, base-directory listing, /proc introspection) are
passed in explicitly as function-valued parameters, so every definition is
executable.
-/

namespace Svsh

/-- Decidable equality of Except values, so that concrete evaluations of
the embedded functions can be checked by `decide`. -/
instance {ε α : Type} [DecidableEq ε] [DecidableEq α] : DecidableEq (Except ε α) :=
  fun a b =>
    match a, b with
    | .error x, .error y =>
      if h : x = y then .isTrue (by rw [h])
      else .isFalse (fun hh => h (Except.error.inj hh))
    | .error _, .ok _ => .isFalse (fun hh => Except.noConfusion hh)
    | .ok _, .error _ => .isFalse (fun hh => Except.noConfusion hh)
    | .ok x, .ok y =>
      if h : x = y then .isTrue (by rw [h])
      else .isFalse (fun hh => h (Except.ok.inj hh))

/-- The Status enumeration of pkg/svsh/svsh.go (StatusUp .. StatusUnknown). -/
inductive Status where
  | up
  | down
  | resetting
  | backoff
  | disabled
  | unknown
deriving DecidableEq, Repr

/-- The Service struct of pkg/svsh/svsh.go.  `pid` is a Go int holding a
nonnegative value parsed from a digit run; `duration` is a Go
time.Duration, i.e. a signed count of nanoseconds. -/
structure Service where
  name : String
  status : Status
  pid : Nat
  duration : Int
deriving DecidableEq, Repr

/-- The error values the adapters can produce.  Each constructor stands for
one `errors.New` value or `fmt.Errorf` call site in the Go source, carrying
the same data that the Go format string interpolates. -/
inductive Err where
  | readBaseDir (cause : String)
  | failedStatus (svc : String) (cause : String)
  | parseOutput (svc : String) (raw : List Char)
  | parseStatus (svc : String) (tok : List Char)
  | parsePid (svc : String) (tok : List Char)
  | parseDuration (svc : String) (tok : List Char)
  | unsupportedSignal
  | unsupportedCommand
  | failedSignaling (svc : String) (cause : String)
  | execFailed (cause : String)
  | failedGettingStatus (cause : String)
  | parseLoggerStatus
  | parseLoggerPid (tok : List Char)
  | findLogFailed (cause : String)
  | noLogFile
  | failedStartingTail (cause : String)
  | failedTailing (cause : String)
deriving DecidableEq, Repr

/-- A subprocess invocation: program, argument list, and the replacement
environment (empty means the caller's environment is inherited, as with
`exec.Command` when `.Env` is left unset). -/
structure Cmd where
  prog : String
  args : List String
  env : List String
deriving DecidableEq, Repr

/-- One entry of an `ioutil.ReadDir` listing: base name and directory bit. -/
structure DirEntry where
  name : String
  isDir : Bool
deriving DecidableEq, Repr

/-- Go's `filepath.Join` for a clean base path and a clean relative name. -/
def pathJoin (a b : String) : String := a ++ "/" ++ b

/-- Byte-wise lexicographic string comparison, as used by Go's
`sort.Strings` (the `<` operator on strings).  Comparing Unicode code
points agrees with comparing UTF-8 bytes. -/
def charsLe : List Char → List Char → Bool
  | [], _ => true
  | _ :: _, [] => false
  | a :: as, b :: bs =>
    if a.toNat < b.toNat then true
    else if b.toNat < a.toNat then false
    else charsLe as bs

/-- Go string `<=` on Lean strings, via `charsLe`. -/
def nameLe (a b : String) : Prop := charsLe a.data b.data = true

instance : DecidableRel nameLe := fun a b =>
  inferInstanceAs (Decidable (charsLe a.data b.data = true))

/-- serviceDirs (pkg/svsh/svsh.go lines 104-121): names of the immediate
subdirectories of the base directory, sorted with `sort.Strings`. -/
def serviceDirs (entries : List DirEntry) : List String :=
  List.insertionSort nameLe ((entries.filter (fun e => e.isDir)).map (fun e => e.name))

/-! ## Regular-expression models

Go's `regexp` package (RE2 with Perl match semantics) finds the leftmost
match, preferring earlier alternatives and greedy repetition.  The four
patterns used by the adapters are simple enough that each is modelled by a
dedicated recursive matcher; character classes such as `[^:]+` exclude the
character that terminates them, so greedy repetition is deterministic, and
the only genuine backtracking point (the optional pid group of the runit
pattern) is modelled explicitly. -/

/-- Longest prefix not containing `c`, and the remainder (which starts with
`c` when `c` occurs). -/
def takeUntil (c : Char) : List Char → List Char × List Char
  | [] => ([], [])
  | x :: xs =>
    if x = c then ([], x :: xs)
    else
      let p := takeUntil c xs
      (x :: p.1, p.2)

/-- Longest prefix of ASCII digits, and the remainder. -/
def takeDigits : List Char → List Char × List Char
  | [] => ([], [])
  | x :: xs =>
    if x.isDigit then
      let p := takeDigits xs
      (x :: p.1, p.2)
    else ([], x :: xs)

/-- Consume an exact literal prefix, returning the remainder. -/
def dropLit : List Char → List Char → Option (List Char)
  | [], s => some s
  | _ :: _, [] => none
  | c :: l, x :: xs => if x = c then dropLit l xs else none

/-- The pid branch ` \(pid (\d+)\)` of the runit status pattern: returns
the captured digits and the remainder. -/
def runitPidBranch (s : List Char) : Option (List Char × List Char) :=
  match dropLit " (pid ".data s with
  | none => none
  | some s1 =>
    let p := takeDigits s1
    if p.1 = [] then none
    else
      match p.2 with
      | ')' :: rest => some (p.1, rest)
      | _ => none

/-- The duration tail ` (\d+s)` of the runit status pattern: returns the
capture (digits plus the trailing `s`). -/
def runitDurTail (s : List Char) : Option (List Char) :=
  match dropLit [' '] s with
  | none => none
  | some s1 =>
    let p := takeDigits s1
    if p.1 = [] then none
    else
      match p.2 with
      | 's' :: _ => some (p.1 ++ ['s'])
      | _ => none

/-- The tail `(?: \(pid (\d+)\))? (\d+s)` of the runit status pattern,
with Go's preference for taking the optional group and backtracking out of
it when the rest then fails. -/
def runitTail (s : List Char) : Option (Option (List Char) × List Char) :=
  match runitPidBranch s with
  | some (pid, rest) =>
    match runitDurTail rest with
    | some dur => some (some pid, dur)
    | none =>
      match runitDurTail s with
      | some dur => some (none, dur)
      | none => none
  | none =>
    match runitDurTail s with
    | some dur => some (none, dur)
    | none => none

/-- Model of `runitStatusRegexp.FindSubmatch` for the anchored pattern
`^([^:]+):[^:]+:(?: \(pid (\d+)\))? (\d+s)` (part_001 line 261): the state
capture, the optional pid capture, and the duration capture. -/
def runitMatch (s : List Char) : Option (List Char × Option (List Char) × List Char) :=
  let p1 := takeUntil ':' s
  if p1.1 = [] then none
  else
    match p1.2 with
    | ':' :: r2 =>
      let p2 := takeUntil ':' r2
      if p2.1 = [] then none
      else
        match p2.2 with
        | ':' :: r4 =>
          match runitTail r4 with
          | some (pid, dur) => some (p1.1, pid, dur)
          | none => none
        | _ => none
    | _ => none

/-- One attempt of the s6 status pattern `(up|down) \(([^\)]+)\) (\d+)/`
at a fixed start position. -/
def s6MatchAt (s : List Char) : Option (List Char × List Char × List Char) :=
  let st? : Option (List Char × List Char) :=
    match dropLit "up".data s with
    | some r => some ("up".data, r)
    | none =>
      match dropLit "down".data s with
      | some r => some ("down".data, r)
      | none => none
  match st? with
  | none => none
  | some (st, r1) =>
    match dropLit " (".data r1 with
    | none => none
    | some r2 =>
      let pd := takeUntil ')' r2
      if pd.1 = [] then none
      else
        match pd.2 with
        | ')' :: r4 =>
          match dropLit [' '] r4 with
          | none => none
          | some r5 =>
            let pn := takeDigits r5
            if pn.1 = [] then none
            else
              match pn.2 with
              | '/' :: _ => some (st, pd.1, pn.1)
              | _ => none
        | _ => none

/-- Model of `s6StatusRegexp.FindSubmatch` (part_001 line 24): leftmost
match of the unanchored pattern, scanning start positions left to right. -/
def s6Match : List Char → Option (List Char × List Char × List Char)
  | [] => none
  | c :: cs =>
    match s6MatchAt (c :: cs) with
    | some m => some m
    | none => s6Match cs

/-- One attempt of the pid pattern `pid (\d+)` at a fixed start position. -/
def s6PidAt (s : List Char) : Option (List Char) :=
  match dropLit "pid ".data s with
  | none => none
  | some r =>
    let p := takeDigits r
    if p.1 = [] then none else some p.1

/-- Model of `s6PidRegexp.FindSubmatch` (part_001 line 25): leftmost match
of `pid (\d+)`, returning the digit capture. -/
def s6PidFind : List Char → Option (List Char)
  | [] => none
  | c :: cs =>
    match s6PidAt (c :: cs) with
    | some p => some p
    | none => s6PidFind cs

/-- One attempt of the logger pattern `log: \(pid (\d+)\)` at a fixed
start position. -/
def runitLoggerAt (s : List Char) : Option (List Char) :=
  match dropLit "log: (pid ".data s with
  | none => none
  | some r =>
    let p := takeDigits r
    if p.1 = [] then none
    else
      match p.2 with
      | ')' :: _ => some p.1
      | _ => none

/-- Model of `runitLoggerRegexp.FindSubmatch` (part_001 line 262). -/
def runitLoggerFind : List Char → Option (List Char)
  | [] => none
  | c :: cs =>
    match runitLoggerAt (c :: cs) with
    | some p => some p
    | none => runitLoggerFind cs

/-! ## Numeric token parsing -/

/-- Numeric value of a digit run. -/
def digitsVal (ds : List Char) : Nat :=
  ds.foldl (fun a c => a * 10 + (c.toNat - '0'.toNat)) 0

/-- Go's `strconv.Atoi` on the tokens the status patterns can capture:
nonempty ASCII digit runs.  Values above MaxInt64 fail with ErrRange
(svsh runs Atoi only on `\d+` captures, so signs never occur). -/
def atoi (ds : List Char) : Option Nat :=
  if ds = [] then none
  else if ds.all Char.isDigit then
    if digitsVal ds < 2 ^ 63 then some (digitsVal ds) else none
  else none

/-- Nanosecond multiplier of a Go duration unit name.  The non-ASCII
spellings of microseconds are omitted: they cannot occur in tokens captured
by `(\d+s)` or `(\d+)`. -/
def unitVal : List Char → Option Nat
  | ['n', 's'] => some 1
  | ['u', 's'] => some 1000
  | ['m', 's'] => some 1000000
  | ['s'] => some 1000000000
  | ['m'] => some 60000000000
  | ['h'] => some 3600000000000
  | _ => none

/-- Longest prefix of characters that are neither digits nor `.`, as Go's
duration scanner delimits a unit name, and the remainder. -/
def takeUnit : List Char → List Char × List Char
  | [] => ([], [])
  | c :: cs =>
    if c.isDigit || c = '.' then ([], c :: cs)
    else
      let p := takeUnit cs
      (c :: p.1, p.2)

/-- The component loop of Go's `time.ParseDuration`: repeatedly read a
digit run and a unit name, accumulating nanoseconds, failing on a missing
or unknown unit or on exceeding MaxInt64 nanoseconds.  The fuel argument
bounds the recursion by the input length. -/
def parseDurLoop : Nat → List Char → Option Nat
  | _, [] => some 0
  | 0, _ :: _ => none
  | fuel + 1, x :: xs =>
    let p := takeDigits (x :: xs)
    if p.1 = [] then none
    else
      let u := takeUnit p.2
      match unitVal u.1 with
      | none => none
      | some mult =>
        match parseDurLoop fuel u.2 with
        | none => none
        | some rest =>
          if digitsVal p.1 * mult + rest < 2 ^ 63 then some (digitsVal p.1 * mult + rest)
          else none

/-- Go's `time.ParseDuration` on the tokens the status patterns can
capture: a nonempty ASCII digit run optionally followed by unit names.
Signs, fractional parts and non-ASCII units cannot occur in `(\d+s)` or
`(\d+)` captures and are not modelled.  The bare string `0` is the single
unitless value Go accepts; a digit run with no unit fails with
`missing unit in duration`. -/
def parseDuration (s : List Char) : Option Int :=
  if s = [] then none
  else if s = ['0'] then some 0
  else (parseDurLoop s.length s).map Int.ofNat

/-! ## Status parsing (Runit.Status, S6.Status)

Each adapter's per-directory body is split into the same small steps the Go
code performs in order: run the status command, match the suite's pattern,
switch on the state capture, parse the pid capture, parse the duration
capture.  `Except Err (Option Service)` mirrors the three exits of the Go
loop body: early `return` with an error, `continue` (skip), and `append`. -/

/-- The state switch of Runit.Status (part_001 lines 296-311). -/
def runitStatusOf (debug : Bool) (name : String) (st : List Char) : Except Err Status :=
  if st = "run".data then .ok .up
  else if st = "down".data then .ok .down
  else if st = "backoff".data then .ok .backoff
  else if st = "disabled".data then .ok .disabled
  else if debug then .error (.parseStatus name st)
  else .ok .unknown

/-- The state switch of S6.Status (part_001 lines 59-70). -/
def s6StatusOf (debug : Bool) (name : String) (st : List Char) : Except Err Status :=
  if st = "up".data then .ok .up
  else if st = "down".data then .ok .down
  else if debug then .error (.parseStatus name st)
  else .ok .unknown

/-- The pid step of Runit.Status (part_001 lines 313-318): an absent
capture leaves the pid at zero; a failed Atoi leaves it at zero in normal
mode and aborts in debug mode. -/
def runitPidOf (debug : Bool) (name : String) : Option (List Char) → Except Err Nat
  | none => .ok 0
  | some p =>
    match atoi p with
    | some n => .ok n
    | none => if debug then .error (.parsePid name p) else .ok 0

/-- The pid step of S6.Status (part_001 lines 72-80): the pid is extracted
from the detail capture by a second pattern; no match leaves it at zero. -/
def s6PidOf (debug : Bool) (name : String) (detail : List Char) : Except Err Nat :=
  if detail = [] then .ok 0
  else
    match s6PidFind detail with
    | none => .ok 0
    | some p =>
      match atoi p with
      | some n => .ok n
      | none => if debug then .error (.parsePid name p) else .ok 0

/-- The duration step shared by both adapters (part_001 lines 82-87 and
320-325): a failed ParseDuration leaves the duration at zero in normal
mode and aborts in debug mode. -/
def durOfTok (debug : Bool) (name : String) (tok : List Char) : Except Err Int :=
  if tok = [] then .ok 0
  else
    match parseDuration tok with
    | some v => .ok v
    | none => if debug then .error (.parseDuration name tok) else .ok 0

/-- The per-line body of Runit.Status after the status command succeeded
(part_001 lines 283-327). -/
def runitParseLine (debug : Bool) (name : String) (raw : List Char) :
    Except Err (Option Service) :=
  match runitMatch raw with
  | none => if debug then .error (.parseOutput name raw) else .ok none
  | some (st, pidTok, durTok) =>
    match runitStatusOf debug name st with
    | .error e => .error e
    | .ok status =>
      match runitPidOf debug name pidTok with
      | .error e => .error e
      | .ok pid =>
        match durOfTok debug name durTok with
        | .error e => .error e
        | .ok dur => .ok (some ⟨name, status, pid, dur⟩)

/-- The per-line body of S6.Status after the status command succeeded
(part_001 lines 46-87). -/
def s6ParseLine (debug : Bool) (name : String) (raw : List Char) :
    Except Err (Option Service) :=
  match s6Match raw with
  | none => if debug then .error (.parseOutput name raw) else .ok none
  | some (st, detail, durTok) =>
    match s6StatusOf debug name st with
    | .error e => .error e
    | .ok status =>
      match s6PidOf debug name detail with
      | .error e => .error e
      | .ok pid =>
        match durOfTok debug name durTok with
        | .error e => .error e
        | .ok dur => .ok (some ⟨name, status, pid, dur⟩)

/-- Runit.runCmd (part_001 lines 454-460): every runit control command is
`sv <sub> <args>` with `SVDIR` naming the base directory. -/
def runitCmd (base sub : String) (args : List String) : Cmd :=
  ⟨"sv", sub :: args, ["SVDIR=" ++ base]⟩

/-- The per-directory body of Runit.Status (part_001 lines 271-328): run
`status <dir>`, then parse.  A failed command is skipped in normal mode and
aborts in debug mode. -/
def runitProcessDir (ex : Cmd → Except String (List Char)) (base : String)
    (debug : Bool) (d : String) : Except Err (Option Service) :=
  match ex (runitCmd base "status" [d]) with
  | .error e => if debug then .error (.failedStatus d e) else .ok none
  | .ok raw => runitParseLine debug d raw

/-- The status command of S6.Status (part_001 line 37):
`s6-svstat <base>/<dir>`. -/
def s6StatusCmd (base d : String) : Cmd :=
  ⟨"s6-svstat", [pathJoin base d], []⟩

/-- The per-directory body of S6.Status (part_001 lines 34-90). -/
def s6ProcessDir (ex : Cmd → Except String (List Char)) (base : String)
    (debug : Bool) (d : String) : Except Err (Option Service) :=
  match ex (s6StatusCmd base d) with
  | .error e => if debug then .error (.failedStatus d e) else .ok none
  | .ok raw => s6ParseLine debug d raw

/-- The service loop shared by both Status implementations: iterate over
the sorted directory names; an error aborts (returning the services
accumulated so far alongside the error, as the Go multiple return does), a
skip continues, a parsed service is appended. -/
def statusLoop (proc : String → Except Err (Option Service)) :
    List String → List Service × Option Err
  | [] => ([], none)
  | d :: rest =>
    match proc d with
    | .error e => ([], some e)
    | .ok none => statusLoop proc rest
    | .ok (some s) => (s :: (statusLoop proc rest).1, (statusLoop proc rest).2)

/-- Runit.Status (part_001 lines 265-331).  `readDir` is the outcome of
reading the base directory. -/
def runitStatus (ex : Cmd → Except String (List Char))
    (readDir : Except String (List DirEntry)) (base : String) (debug : Bool) :
    List Service × Option Err :=
  match readDir with
  | .error e => ([], some (.readBaseDir e))
  | .ok entries => statusLoop (runitProcessDir ex base debug) (serviceDirs entries)

/-- S6.Status (part_001 lines 28-93). -/
def s6Status (ex : Cmd → Except String (List Char))
    (readDir : Except String (List DirEntry)) (base : String) (debug : Bool) :
    List Service × Option Err :=
  match readDir with
  | .error e => ([], some (.readBaseDir e))
  | .ok entries => statusLoop (s6ProcessDir ex base debug) (serviceDirs entries)

/-! ## Signal translation -/

/-- The abstract signals appearing in the suites' switch statements. -/
inductive Sig where
  | alrm
  | abrt
  | quit
  | hup
  | kill
  | term
  | int
  | usr1
  | usr2
  | cont
  | winch
  | stop
deriving DecidableEq, Repr

/-- The switch of S6.Signal (part_001 lines 134-159), as the lookup it
performs: a signal reaching the default case maps to none. -/
def s6SignalFlag : Sig → Option String
  | .alrm => some "-a"
  | .abrt => some "-b"
  | .quit => some "-q"
  | .hup => some "-h"
  | .kill => some "-k"
  | .term => some "-t"
  | .int => some "-i"
  | .usr1 => some "-1"
  | .usr2 => some "-2"
  | .cont => some "-c"
  | .winch => some "-y"
  | .stop => none

/-- The switch of Runit.Signal (part_001 lines 351-374). -/
def runitSignalFlag : Sig → Option String
  | .stop => some "pause"
  | .cont => some "cont"
  | .hup => some "hup"
  | .alrm => some "alarm"
  | .int => some "interrupt"
  | .quit => some "quit"
  | .usr1 => some "1"
  | .usr2 => some "2"
  | .term => some "term"
  | .kill => some "kill"
  | .abrt => none
  | .winch => none

/-- The per-target loop of S6.Signal (part_001 lines 161-166), returning
the outcome together with the invocations issued. -/
def s6SignalLoop (ex : Cmd → Except String (List Char)) (base flag : String) :
    List String → Except Err Unit × List Cmd
  | [] => (.ok (), [])
  | s :: rest =>
    let c : Cmd := ⟨"s6-svc", [flag, pathJoin base s], []⟩
    match ex c with
    | .error e => (.error (.failedSignaling s e), [c])
    | .ok _ =>
      ((s6SignalLoop ex base flag rest).1, c :: (s6SignalLoop ex base flag rest).2)

/-- S6.Signal (part_001 lines 131-169). -/
def s6Signal (ex : Cmd → Except String (List Char)) (base : String) (sig : Sig)
    (svcs : List String) : Except Err Unit × List Cmd :=
  match s6SignalFlag sig with
  | none => (.error .unsupportedSignal, [])
  | some flag => s6SignalLoop ex base flag svcs

/-- Runit.Signal (part_001 lines 348-379): one batched `sv` invocation
over the full service paths. -/
def runitSignal (ex : Cmd → Except String (List Char)) (base : String) (sig : Sig)
    (svcs : List String) : Except Err Unit × List Cmd :=
  match runitSignalFlag sig with
  | none => (.error .unsupportedSignal, [])
  | some sub =>
    let c := runitCmd base sub (svcs.map (pathJoin base))
    match ex c with
    | .error e => (.error (.execFailed e), [c])
    | .ok _ => (.ok (), [c])

/-! ## Log resolution and foreground (findLogFile, Runit.Fg, Runit.Rescan) -/

/-- One entry of a `/proc/<pid>/fd` listing: entry name, whether its mode
has the symlink bit `1 << 27` (os.ModeSymlink) that svsh.go line 88 tests,
and the outcome of `os.Readlink` on it. -/
structure FdEntry where
  name : String
  isSymlink : Bool
  target : Except String String

/-- The /proc introspection surface used by findLogFile: resolve a pid's
executable link, and list its open-descriptor directory. -/
structure ProcEnv where
  exeOf : Nat → Except String String
  fds : Nat → Except String (List FdEntry)

/-- Go's `filepath.Base`: empty input gives `.`, trailing slashes are
dropped, an all-slash path gives `/`, otherwise the last element. -/
def basename (s : String) : String :=
  if s.data = [] then "."
  else
    let stripped := (s.data.reverse.dropWhile (fun c => c = '/')).reverse
    if stripped = [] then "/"
    else ((stripped.reverse.takeWhile (fun c => c ≠ '/')).reverse).asString

/-- The logger binary names recognised by findLogFile (svsh.go line 78). -/
def loggerNames : List String := ["tinylog", "s6-log", "svlogd", "multilog"]

/-- The descriptor scan of findLogFile (svsh.go lines 87-98): the first
symlink whose target's base name is `current`, if any; a failed readlink
aborts. -/
def scanFds : List FdEntry → Except String (Option String)
  | [] => .ok none
  | l :: rest =>
    if l.isSymlink then
      match l.target with
      | .error e => .error e
      | .ok t => if basename t = "current" then .ok (some t) else scanFds rest
    else scanFds rest

/-- findLogFile (svsh.go lines 69-102): resolve the pid's executable; when
it is a known logger, scan its open descriptors for one targeting a file
named `current`.  `ok none` is Go's `return "", nil`. -/
def findLogFile (env : ProcEnv) (pid : Nat) : Except String (Option String) :=
  match env.exeOf pid with
  | .error e => .error e
  | .ok exe =>
    if basename exe ∈ loggerNames then
      match env.fds pid with
      | .error e => .error e
      | .ok links => scanFds links
    else .ok none

/-- Runit.Fg (part_001 lines 381-428), returning the outcome together with
the invocations issued.  The tail subprocess's start and wait are folded
into one `ex` call; an error beginning with `signal:` is the forwarded
interrupt and counts as success. -/
def runitFg (ex : Cmd → Except String (List Char)) (env : ProcEnv)
    (base svc : String) : Except Err Unit × List Cmd :=
  let statusCmd := runitCmd base "status" [pathJoin base svc]
  match ex statusCmd with
  | .error e => (.error (.failedGettingStatus e), [statusCmd])
  | .ok txt =>
    match runitLoggerFind txt with
    | none => (.error .parseLoggerStatus, [statusCmd])
    | some pidTok =>
      match atoi pidTok with
      | none => (.error (.parseLoggerPid pidTok), [statusCmd])
      | some pid =>
        match findLogFile env pid with
        | .error e => (.error (.findLogFailed e), [statusCmd])
        | .ok none => (.error .noLogFile, [statusCmd])
        | .ok (some file) =>
          let tailCmd : Cmd := ⟨"tail", ["-f", file], []⟩
          match ex tailCmd with
          | .ok _ => (.ok (), [statusCmd, tailCmd])
          | .error e =>
            if "signal:".data.isPrefixOf e.data then (.ok (), [statusCmd, tailCmd])
            else (.error (.failedTailing e), [statusCmd, tailCmd])

/-- Runit.Rescan (part_001 lines 450-452): unconditionally
ErrUnsupportedCommand, with no subprocess invocation.  The executor
parameter records that `runCmd` is available to the method but unused. -/
def runitRescan (ex : Cmd → Except String (List Char)) : Except Err Unit × List Cmd :=
  (.error .unsupportedCommand, [])

/-! ## Order properties of the string comparison -/

theorem charsLe_total : ∀ a b : List Char, charsLe a b = true ∨ charsLe b a = true := by
  intro a
  induction a with
  | nil => intro b; left; rfl
  | cons a as ih =>
    intro b
    cases b with
    | nil => right; rfl
    | cons b bs =>
      simp only [charsLe]
      rcases Nat.lt_trichotomy a.toNat b.toNat with h | h | h
      · left
        simp [h]
      · have h1 : ¬a.toNat < b.toNat := by omega
        have h2 : ¬b.toNat < a.toNat := by omega
        simp only [h1, h2, if_false]
        exact ih bs
      · right
        simp [h]

theorem charsLe_trans : ∀ a b c : List Char,
    charsLe a b = true → charsLe b c = true → charsLe a c = true := by
  intro a
  induction a with
  | nil => intro b c _ _; rfl
  | cons a as ih =>
    intro b c h1 h2
    cases b with
    | nil => simp [charsLe] at h1
    | cons b bs =>
      cases c with
      | nil => simp [charsLe] at h2
      | cons c cs =>
        simp only [charsLe] at h1 h2 ⊢
        by_cases hab : a.toNat < b.toNat
        · by_cases hbc : b.toNat < c.toNat
          · have hac : a.toNat < c.toNat := Nat.lt_trans hab hbc
            simp [hac]
          · by_cases hcb : c.toNat < b.toNat
            · simp [hbc, hcb] at h2
            · have hac : a.toNat < c.toNat := by omega
              simp [hac]
        · by_cases hba : b.toNat < a.toNat
          · simp [hab, hba] at h1
          · by_cases hbc : b.toNat < c.toNat
            · have hac : a.toNat < c.toNat := by omega
              simp [hac]
            · by_cases hcb : c.toNat < b.toNat
              · simp [hbc, hcb] at h2
              · have hac : ¬a.toNat < c.toNat := by omega
                have hca : ¬c.toNat < a.toNat := by omega
                simp only [hab, hba, if_false] at h1
                simp only [hbc, hcb, if_false] at h2
                simp only [hac, hca, if_false]
                exact ih bs cs h1 h2

instance : IsTotal String nameLe :=
  ⟨fun a b => charsLe_total a.data b.data⟩

instance : IsTrans String nameLe :=
  ⟨fun a b c => charsLe_trans a.data b.data c.data⟩

/-! ## Generic lemmas about the status loop -/

theorem statusLoop_cons_error {proc : String → Except Err (Option Service)}
    {d : String} {e : Err} (rest : List String) (h : proc d = .error e) :
    statusLoop proc (d :: rest) = ([], some e) := by
  simp [statusLoop, h]

theorem statusLoop_cons_skip {proc : String → Except Err (Option Service)}
    {d : String} (rest : List String) (h : proc d = .ok none) :
    statusLoop proc (d :: rest) = statusLoop proc rest := by
  simp [statusLoop, h]

theorem statusLoop_cons_ok {proc : String → Except Err (Option Service)}
    {d : String} {s : Service} (rest : List String) (h : proc d = .ok (some s)) :
    statusLoop proc (d :: rest)
      = (s :: (statusLoop proc rest).1, (statusLoop proc rest).2) := by
  simp [statusLoop, h]

/-- Every service produced by the loop carries the name of the directory it
was parsed from, so the name sequence of the result is a sublist of the
directory sequence. -/
theorem statusLoop_names_sublist {proc : String → Except Err (Option Service)}
    (hname : ∀ d s, proc d = .ok (some s) → s.name = d) :
    ∀ dirs : List String,
      ((statusLoop proc dirs).1.map Service.name).Sublist dirs := by
  intro dirs
  induction dirs with
  | nil => simp [statusLoop]
  | cons d rest ih =>
    cases hp : proc d with
    | error e =>
      rw [statusLoop_cons_error rest hp]
      simp
    | ok o =>
      cases o with
      | none =>
        rw [statusLoop_cons_skip rest hp]
        exact ih.cons d
      | some s =>
        rw [statusLoop_cons_ok rest hp]
        have hn := hname d s hp
        simpa [hn] using ih.cons₂ d

/-- If the per-directory body never fails, the loop reports no error. -/
theorem statusLoop_no_error {proc : String → Except Err (Option Service)}
    (hok : ∀ d, ∃ o, proc d = .ok o) :
    ∀ dirs : List String, (statusLoop proc dirs).2 = none := by
  intro dirs
  induction dirs with
  | nil => rfl
  | cons d rest ih =>
    obtain ⟨o, hp⟩ := hok d
    cases o with
    | none => rw [statusLoop_cons_skip rest hp]; exact ih
    | some s => rw [statusLoop_cons_ok rest hp]; exact ih

/-- Every service in the loop's result was produced by the body on some
directory. -/
theorem statusLoop_mem {proc : String → Except Err (Option Service)} :
    ∀ dirs : List String, ∀ s ∈ (statusLoop proc dirs).1,
      ∃ d, proc d = .ok (some s) := by
  intro dirs
  induction dirs with
  | nil => intro s hs; simp [statusLoop] at hs
  | cons d rest ih =>
    intro s hs
    cases hp : proc d with
    | error e =>
      rw [statusLoop_cons_error rest hp] at hs
      simp at hs
    | ok o =>
      cases o with
      | none =>
        rw [statusLoop_cons_skip rest hp] at hs
        exact ih s hs
      | some t =>
        rw [statusLoop_cons_ok rest hp] at hs
        rcases List.mem_cons.mp hs with h1 | h1
        · subst h1
          exact ⟨d, hp⟩
        · exact ih s h1

/-- When every directory in an initial segment parses to a service, the
loop prepends exactly those services. -/
theorem statusLoop_append_ok {proc : String → Except Err (Option Service)}
    {f : String → Service} :
    ∀ pre rest : List String, (∀ d ∈ pre, proc d = .ok (some (f d))) →
      statusLoop proc (pre ++ rest)
        = (pre.map f ++ (statusLoop proc rest).1, (statusLoop proc rest).2) := by
  intro pre
  induction pre with
  | nil => intro rest _; simp
  | cons d ds ih =>
    intro rest h
    have hd : proc d = .ok (some (f d)) := h d (by simp)
    rw [List.cons_append, statusLoop_cons_ok (ds ++ rest) hd,
      ih rest (fun x hx => h x (by simp [hx]))]
    simp

/-- When every directory parses to a service, the loop returns exactly the
mapped services and no error. -/
theorem statusLoop_all_ok {proc : String → Except Err (Option Service)}
    {f : String → Service} (dirs : List String)
    (h : ∀ d ∈ dirs, proc d = .ok (some (f d))) :
    statusLoop proc dirs = (dirs.map f, none) := by
  have := @statusLoop_append_ok proc f dirs [] h
  simpa [statusLoop] using this

/-! ## Step lemmas for the per-line parsers -/

theorem runitStatusOf_false_ok (name : String) (st : List Char) :
    ∃ v, runitStatusOf false name st = .ok v := by
  unfold runitStatusOf
  split_ifs with h1 h2 h3 h4 h5
  · exact ⟨.up, rfl⟩
  · exact ⟨.down, rfl⟩
  · exact ⟨.backoff, rfl⟩
  · exact ⟨.disabled, rfl⟩
  · exact absurd h5 (by simp)
  · exact ⟨.unknown, rfl⟩

theorem s6StatusOf_false_ok (name : String) (st : List Char) :
    ∃ v, s6StatusOf false name st = .ok v := by
  unfold s6StatusOf
  split_ifs with h1 h2 h3
  · exact ⟨.up, rfl⟩
  · exact ⟨.down, rfl⟩
  · exact absurd h3 (by simp)
  · exact ⟨.unknown, rfl⟩

theorem runitPidOf_false_ok (name : String) (tok : Option (List Char)) :
    ∃ v, runitPidOf false name tok = .ok v := by
  cases tok with
  | none => exact ⟨0, rfl⟩
  | some p =>
    cases ha : atoi p with
    | none => exact ⟨0, by simp [runitPidOf, ha]⟩
    | some n => exact ⟨n, by simp [runitPidOf, ha]⟩

theorem s6PidOf_false_ok (name : String) (detail : List Char) :
    ∃ v, s6PidOf false name detail = .ok v := by
  by_cases h : detail = []
  · exact ⟨0, by simp [s6PidOf, h]⟩
  · cases hf : s6PidFind detail with
    | none => exact ⟨0, by simp [s6PidOf, h, hf]⟩
    | some p =>
      cases ha : atoi p with
      | none => exact ⟨0, by simp [s6PidOf, h, hf, ha]⟩
      | some n => exact ⟨n, by simp [s6PidOf, h, hf, ha]⟩

theorem durOfTok_false_ok (name : String) (tok : List Char) :
    ∃ v, durOfTok false name tok = .ok v := by
  by_cases h : tok = []
  · exact ⟨0, by simp [durOfTok, h]⟩
  · cases hp : parseDuration tok with
    | none => exact ⟨0, by simp [durOfTok, h, hp]⟩
    | some v => exact ⟨v, by simp [durOfTok, h, hp]⟩

/-- In normal mode the per-line parser never fails: every error site is
guarded by DebugMode. -/
theorem runitParseLine_false_ok (name : String) (raw : List Char) :
    ∃ o, runitParseLine false name raw = .ok o := by
  cases hm : runitMatch raw with
  | none => exact ⟨none, by simp [runitParseLine, hm]⟩
  | some t =>
    obtain ⟨st, pidTok, durTok⟩ := t
    obtain ⟨v1, h1⟩ := runitStatusOf_false_ok name st
    obtain ⟨v2, h2⟩ := runitPidOf_false_ok name pidTok
    obtain ⟨v3, h3⟩ := durOfTok_false_ok name durTok
    exact ⟨some ⟨name, v1, v2, v3⟩, by simp [runitParseLine, hm, h1, h2, h3]⟩

theorem s6ParseLine_false_ok (name : String) (raw : List Char) :
    ∃ o, s6ParseLine false name raw = .ok o := by
  cases hm : s6Match raw with
  | none => exact ⟨none, by simp [s6ParseLine, hm]⟩
  | some t =>
    obtain ⟨st, detail, durTok⟩ := t
    obtain ⟨v1, h1⟩ := s6StatusOf_false_ok name st
    obtain ⟨v2, h2⟩ := s6PidOf_false_ok name detail
    obtain ⟨v3, h3⟩ := durOfTok_false_ok name durTok
    exact ⟨some ⟨name, v1, v2, v3⟩, by simp [s6ParseLine, hm, h1, h2, h3]⟩

theorem runitProcessDir_false_ok (ex : Cmd → Except String (List Char))
    (base : String) (d : String) :
    ∃ o, runitProcessDir ex base false d = .ok o := by
  unfold runitProcessDir
  cases ex (runitCmd base "status" [d]) with
  | error e => exact ⟨none, rfl⟩
  | ok raw => exact runitParseLine_false_ok d raw

theorem s6ProcessDir_false_ok (ex : Cmd → Except String (List Char))
    (base : String) (d : String) :
    ∃ o, s6ProcessDir ex base false d = .ok o := by
  unfold s6ProcessDir
  cases ex (s6StatusCmd base d) with
  | error e => exact ⟨none, rfl⟩
  | ok raw => exact s6ParseLine_false_ok d raw

/-- A parsed service carries the directory name it was parsed from. -/
theorem runitParseLine_name {debug : Bool} {name : String} {raw : List Char}
    {s : Service} (h : runitParseLine debug name raw = .ok (some s)) :
    s.name = name := by
  unfold runitParseLine at h
  split at h
  · split_ifs at h <;> simp_all
  · split at h
    · simp_all
    · split at h
      · simp_all
      · split at h
        · simp_all
        · simp only [Except.ok.injEq, Option.some.injEq] at h
          subst h
          rfl

theorem s6ParseLine_name {debug : Bool} {name : String} {raw : List Char}
    {s : Service} (h : s6ParseLine debug name raw = .ok (some s)) :
    s.name = name := by
  unfold s6ParseLine at h
  split at h
  · split_ifs at h <;> simp_all
  · split at h
    · simp_all
    · split at h
      · simp_all
      · split at h
        · simp_all
        · simp only [Except.ok.injEq, Option.some.injEq] at h
          subst h
          rfl

theorem runitProcessDir_name {ex : Cmd → Except String (List Char)}
    {base : String} {debug : Bool} {d : String} {s : Service}
    (h : runitProcessDir ex base debug d = .ok (some s)) : s.name = d := by
  unfold runitProcessDir at h
  split at h
  · split_ifs at h <;> simp_all
  · exact runitParseLine_name h

theorem s6ProcessDir_name {ex : Cmd → Except String (List Char)}
    {base : String} {debug : Bool} {d : String} {s : Service}
    (h : s6ProcessDir ex base debug d = .ok (some s)) : s.name = d := by
  unfold s6ProcessDir at h
  split at h
  · split_ifs at h <;> simp_all
  · exact s6ParseLine_name h

/-! ## Debug mode refines normal mode on successful parses -/

theorem runitStatusOf_debug_ok {name : String} {st : List Char} {v : Status}
    (h : runitStatusOf true name st = .ok v) :
    runitStatusOf false name st = .ok v := by
  unfold runitStatusOf at h ⊢
  split_ifs at h ⊢ <;> simp_all

theorem s6StatusOf_debug_ok {name : String} {st : List Char} {v : Status}
    (h : s6StatusOf true name st = .ok v) :
    s6StatusOf false name st = .ok v := by
  unfold s6StatusOf at h ⊢
  split_ifs at h ⊢ <;> simp_all

theorem runitPidOf_debug_ok {name : String} {tok : Option (List Char)} {v : Nat}
    (h : runitPidOf true name tok = .ok v) : runitPidOf false name tok = .ok v := by
  cases tok with
  | none => simpa using h
  | some p =>
    cases ha : atoi p with
    | none => simp [runitPidOf, ha] at h
    | some n =>
      simp only [runitPidOf, ha] at h ⊢
      exact h

theorem s6PidOf_debug_ok {name : String} {detail : List Char} {v : Nat}
    (h : s6PidOf true name detail = .ok v) : s6PidOf false name detail = .ok v := by
  by_cases hd : detail = []
  · simpa [s6PidOf, hd] using h
  · cases hf : s6PidFind detail with
    | none => simpa [s6PidOf, hd, hf] using h
    | some p =>
      cases ha : atoi p with
      | none => simp [s6PidOf, hd, hf, ha] at h
      | some n =>
        simp only [s6PidOf, hd, hf, ha, if_neg] at h ⊢
        simpa using h

theorem durOfTok_debug_ok {name : String} {tok : List Char} {v : Int}
    (h : durOfTok true name tok = .ok v) : durOfTok false name tok = .ok v := by
  by_cases ht : tok = []
  · simpa [durOfTok, ht] using h
  · cases hp : parseDuration tok with
    | none => simp [durOfTok, ht, hp] at h
    | some w =>
      simp only [durOfTok, ht, hp, if_neg] at h ⊢
      simpa using h

/-- A line that parses to a service in debug mode parses to the same
service in normal mode: the modes share every parsing step and differ only
at failure sites. -/
theorem runitParseLine_debug_ok {name : String} {raw : List Char} {s : Service}
    (h : runitParseLine true name raw = .ok (some s)) :
    runitParseLine false name raw = .ok (some s) := by
  cases hm : runitMatch raw with
  | none => simp [runitParseLine, hm] at h
  | some t =>
    obtain ⟨st, pidTok, durTok⟩ := t
    cases h1 : runitStatusOf true name st with
    | error e => simp [runitParseLine, hm, h1] at h
    | ok v1 =>
      cases h2 : runitPidOf true name pidTok with
      | error e => simp [runitParseLine, hm, h1, h2] at h
      | ok v2 =>
        cases h3 : durOfTok true name durTok with
        | error e => simp [runitParseLine, hm, h1, h2, h3] at h
        | ok v3 =>
          have he : runitParseLine true name raw = .ok (some ⟨name, v1, v2, v3⟩) := by
            simp [runitParseLine, hm, h1, h2, h3]
          have hs : some s = some (⟨name, v1, v2, v3⟩ : Service) :=
            Except.ok.inj (h.symm.trans he)
          have hfalse : runitParseLine false name raw
              = .ok (some ⟨name, v1, v2, v3⟩) := by
            simp [runitParseLine, hm, runitStatusOf_debug_ok h1,
              runitPidOf_debug_ok h2, durOfTok_debug_ok h3]
          rw [hfalse, ← hs]

theorem s6ParseLine_debug_ok {name : String} {raw : List Char} {s : Service}
    (h : s6ParseLine true name raw = .ok (some s)) :
    s6ParseLine false name raw = .ok (some s) := by
  cases hm : s6Match raw with
  | none => simp [s6ParseLine, hm] at h
  | some t =>
    obtain ⟨st, detail, durTok⟩ := t
    cases h1 : s6StatusOf true name st with
    | error e => simp [s6ParseLine, hm, h1] at h
    | ok v1 =>
      cases h2 : s6PidOf true name detail with
      | error e => simp [s6ParseLine, hm, h1, h2] at h
      | ok v2 =>
        cases h3 : durOfTok true name durTok with
        | error e => simp [s6ParseLine, hm, h1, h2, h3] at h
        | ok v3 =>
          have he : s6ParseLine true name raw = .ok (some ⟨name, v1, v2, v3⟩) := by
            simp [s6ParseLine, hm, h1, h2, h3]
          have hs : some s = some (⟨name, v1, v2, v3⟩ : Service) :=
            Except.ok.inj (h.symm.trans he)
          have hfalse : s6ParseLine false name raw
              = .ok (some ⟨name, v1, v2, v3⟩) := by
            simp [s6ParseLine, hm, s6StatusOf_debug_ok h1,
              s6PidOf_debug_ok h2, durOfTok_debug_ok h3]
          rw [hfalse, ← hs]

theorem runitProcessDir_debug_ok {ex : Cmd → Except String (List Char)}
    {base d : String} {s : Service}
    (h : runitProcessDir ex base true d = .ok (some s)) :
    runitProcessDir ex base false d = .ok (some s) := by
  unfold runitProcessDir at h
  cases hx : ex (runitCmd base "status" [d]) with
  | error e =>
    rw [hx] at h
    simp at h
  | ok raw =>
    rw [hx] at h
    unfold runitProcessDir
    rw [hx]
    exact runitParseLine_debug_ok h

theorem s6ProcessDir_debug_ok {ex : Cmd → Except String (List Char)}
    {base d : String} {s : Service}
    (h : s6ProcessDir ex base true d = .ok (some s)) :
    s6ProcessDir ex base false d = .ok (some s) := by
  unfold s6ProcessDir at h
  cases hx : ex (s6StatusCmd base d) with
  | error e =>
    rw [hx] at h
    simp at h
  | ok raw =>
    rw [hx] at h
    unfold s6ProcessDir
    rw [hx]
    exact s6ParseLine_debug_ok h

/-! ## The S6 state switch only produces up, down and unknown -/

theorem s6StatusOf_range {debug : Bool} {name : String} {st : List Char} {v : Status}
    (h : s6StatusOf debug name st = .ok v) :
    v = .up ∨ v = .down ∨ v = .unknown := by
  unfold s6StatusOf at h
  split_ifs at h <;> simp_all

theorem s6ParseLine_status {debug : Bool} {name : String} {raw : List Char}
    {s : Service} (h : s6ParseLine debug name raw = .ok (some s)) :
    s.status = .up ∨ s.status = .down ∨ s.status = .unknown := by
  cases hm : s6Match raw with
  | none =>
    simp only [s6ParseLine, hm] at h
    split_ifs at h <;> simp_all
  | some t =>
    obtain ⟨st, detail, durTok⟩ := t
    cases h1 : s6StatusOf debug name st with
    | error e => simp [s6ParseLine, hm, h1] at h
    | ok v1 =>
      cases h2 : s6PidOf debug name detail with
      | error e => simp [s6ParseLine, hm, h1, h2] at h
      | ok v2 =>
        cases h3 : durOfTok debug name durTok with
        | error e => simp [s6ParseLine, hm, h1, h2, h3] at h
        | ok v3 =>
          have he : s6ParseLine debug name raw = .ok (some ⟨name, v1, v2, v3⟩) := by
            simp [s6ParseLine, hm, h1, h2, h3]
          have hs : some s = some (⟨name, v1, v2, v3⟩ : Service) :=
            Except.ok.inj (h.symm.trans he)
          have : s = ⟨name, v1, v2, v3⟩ := Option.some.inj hs
          subst this
          exact s6StatusOf_range h1

theorem s6ProcessDir_status {ex : Cmd → Except String (List Char)}
    {base : String} {debug : Bool} {d : String} {s : Service}
    (h : s6ProcessDir ex base debug d = .ok (some s)) :
    s.status = .up ∨ s.status = .down ∨ s.status = .unknown := by
  unfold s6ProcessDir at h
  cases hx : ex (s6StatusCmd base d) with
  | error e =>
    rw [hx] at h
    simp at h
    split_ifs at h <;> simp_all
  | ok raw =>
    rw [hx] at h
    exact s6ParseLine_status h

/-! ## Claim C1 -/

/-- Executor for end-to-end scenario A with the status texts exactly as
the claim states them. -/
def execScenarioA : Cmd → Except String (List Char) := fun c =>
  if c.args = ["status", "web"] then .ok "run: (pid 123) 45s".data
  else if c.args = ["status", "db"] then .ok "down: 12s".data
  else .error "exec: not found"

/-- C1, counterexample: with base directory entries `web` and `db` and the
status texts exactly as claimed (`run: (pid 123) 45s` and `down: 12s`),
neither text matches runitStatusRegexp — the pattern requires a second
colon-terminated field between the state and the pid — so Runit Status()
in normal mode returns the empty listing, not the claimed two services. -/
theorem c1_counterexample :
    runitStatus execScenarioA (.ok [⟨"web", true⟩, ⟨"db", true⟩]) "/etc/service" false
      = ([], none)
    ∧ (runitStatus execScenarioA (.ok [⟨"web", true⟩, ⟨"db", true⟩]) "/etc/service" false).1
      ≠ [⟨"db", .down, 0, 12000000000⟩, ⟨"web", .up, 123, 45000000000⟩] := by
  decide

/-- Executor for the amended scenario A: the status texts carry the
service-name field that the runit status grammar requires. -/
def execScenarioA2 : Cmd → Except String (List Char) := fun c =>
  if c.args = ["status", "web"] then .ok "run: web: (pid 123) 45s".data
  else if c.args = ["status", "db"] then .ok "down: db: 12s".data
  else .error "exec: not found"

/-- C1, amended: with base directory entries `web` and `db`, status text
`run: web: (pid 123) 45s` for `web` and `down: db: 12s` for `db`, Runit
Status() returns the two-element list [{db, Down, 0, 12s},
{web, Up, 123, 45s}] sorted by name, with no error. -/
theorem c1_amended :
    runitStatus execScenarioA2 (.ok [⟨"web", true⟩, ⟨"db", true⟩]) "/etc/service" false
      = ([⟨"db", .down, 0, 12000000000⟩, ⟨"web", .up, 123, 45000000000⟩], none) := by
  decide

/-! ## Claim C2 -/

/-- C2: for every executor (hence every ordering and content of subprocess
outputs), every base directory listing and either mode, the Status()
listing of both the Runit and the S6 adapter is ordered lexicographically
by service name, and every returned service carries the name of an
immediate subdirectory of the base directory. -/
theorem c2_status_sorted_and_subdirs
    (ex : Cmd → Except String (List Char)) (base : String) (debug : Bool)
    (entries : List DirEntry) :
    (((runitStatus ex (.ok entries) base debug).1.map Service.name).Pairwise nameLe
      ∧ ∀ s ∈ (runitStatus ex (.ok entries) base debug).1,
          s.name ∈ (entries.filter (fun e => e.isDir)).map (fun e => e.name))
    ∧ (((s6Status ex (.ok entries) base debug).1.map Service.name).Pairwise nameLe
      ∧ ∀ s ∈ (s6Status ex (.ok entries) base debug).1,
          s.name ∈ (entries.filter (fun e => e.isDir)).map (fun e => e.name)) := by
  have hsorted0 : List.Sorted nameLe (serviceDirs entries) := by
    unfold serviceDirs
    exact List.sorted_insertionSort nameLe _
  have hsorted : (serviceDirs entries).Pairwise nameLe := hsorted0
  have hperm :
      List.Perm (serviceDirs entries)
        ((entries.filter (fun e => e.isDir)).map (fun e => e.name)) := by
    unfold serviceDirs
    exact List.perm_insertionSort nameLe _
  have hsubr :
      (((runitStatus ex (.ok entries) base debug).1.map Service.name).Sublist
        (serviceDirs entries)) :=
    statusLoop_names_sublist (fun d s h => runitProcessDir_name h) (serviceDirs entries)
  have hsubs :
      (((s6Status ex (.ok entries) base debug).1.map Service.name).Sublist
        (serviceDirs entries)) :=
    statusLoop_names_sublist (fun d s h => s6ProcessDir_name h) (serviceDirs entries)
  refine ⟨⟨hsorted.sublist hsubr, ?_⟩, ⟨hsorted.sublist hsubs, ?_⟩⟩
  · intro s hs
    exact hperm.subset (hsubr.subset (List.mem_map_of_mem Service.name hs))
  · intro s hs
    exact hperm.subset (hsubs.subset (List.mem_map_of_mem Service.name hs))

/-- Witness for C2 at a concrete input with a nonempty listing. -/
theorem c2_witness :
    (⟨"db", Status.down, 0, 12000000000⟩ : Service).name
      ∈ (([⟨"web", true⟩, ⟨"db", true⟩] : List DirEntry).filter
          (fun e => e.isDir)).map (fun e => e.name) :=
  (c2_status_sorted_and_subdirs
      (fun c =>
        if c.args = ["status", "db"] then .ok "down: db: 12s".data
        else .error "exec: not found")
      "/etc/service" false [⟨"web", true⟩, ⟨"db", true⟩]).1.2
    ⟨"db", Status.down, 0, 12000000000⟩ (by decide)

/-! ## Claim C3 -/

/-- The per-target signalling loop of S6 issues exactly one invocation per
target when every invocation succeeds. -/
theorem s6SignalLoop_all_ok {ex : Cmd → Except String (List Char)}
    {base flag : String} (hok : ∀ c, ∃ o, ex c = .ok o) :
    ∀ svcs : List String,
      s6SignalLoop ex base flag svcs
        = (.ok (), svcs.map (fun s => ⟨"s6-svc", [flag, pathJoin base s], []⟩)) := by
  intro svcs
  induction svcs with
  | nil => rfl
  | cons s rest ih =>
    obtain ⟨o, ho⟩ := hok ⟨"s6-svc", [flag, pathJoin base s], []⟩
    simp [s6SignalLoop, ho, ih]

/-- C3: a signal absent from a suite's switch makes Signal fail with
UnsupportedSignal and issue no subprocess invocation at all; a present
signal is translated to the suite's flag and issued against each target —
one invocation per target for S6, one batched `sv` invocation naming every
target for Runit. -/
theorem c3_signal_table (sig : Sig) :
    (s6SignalFlag sig = none →
      ∀ (ex : Cmd → Except String (List Char)) (base : String) (svcs : List String),
        s6Signal ex base sig svcs = (.error .unsupportedSignal, []))
    ∧ (∀ flag : String, s6SignalFlag sig = some flag →
        ∀ (ex : Cmd → Except String (List Char)) (base : String) (svcs : List String),
          (∀ c, ∃ o, ex c = .ok o) →
          s6Signal ex base sig svcs
            = (.ok (), svcs.map (fun s => ⟨"s6-svc", [flag, pathJoin base s], []⟩)))
    ∧ (runitSignalFlag sig = none →
        ∀ (ex : Cmd → Except String (List Char)) (base : String) (svcs : List String),
          runitSignal ex base sig svcs = (.error .unsupportedSignal, []))
    ∧ (∀ sub : String, runitSignalFlag sig = some sub →
        ∀ (ex : Cmd → Except String (List Char)) (base : String) (svcs : List String),
          (runitSignal ex base sig svcs).2
            = [runitCmd base sub (svcs.map (pathJoin base))]) := by
  refine ⟨?_, ?_, ?_, ?_⟩
  · intro h ex base svcs
    simp [s6Signal, h]
  · intro flag hf ex base svcs hok
    simp [s6Signal, hf, s6SignalLoop_all_ok hok]
  · intro h ex base svcs
    simp [runitSignal, h]
  · intro sub hs ex base svcs
    cases hx : ex (runitCmd base sub (svcs.map (pathJoin base))) with
    | error e => simp [runitSignal, hs, hx]
    | ok o => simp [runitSignal, hs, hx]

/-- Witness for C3: SIGSTOP is absent from the S6 table and fails with no
invocation; SIGUSR1 maps to `-1` and is issued once per target; SIGHUP on
Runit is issued as one batched `sv hup` invocation. -/
theorem c3_witness :
    s6Signal (fun _ => .ok []) "/run/service" .stop ["web"]
      = (.error .unsupportedSignal, [])
    ∧ s6Signal (fun _ => .ok []) "/run/service" .usr1 ["web", "db"]
      = (.ok (), (["web", "db"].map
          (fun s => ⟨"s6-svc", ["-1", pathJoin "/run/service" s], []⟩)))
    ∧ (runitSignal (fun _ => .ok []) "/etc/service" .hup ["web"]).2
      = [runitCmd "/etc/service" "hup" (["web"].map (pathJoin "/etc/service"))] :=
  ⟨(c3_signal_table .stop).1 rfl _ _ _,
   (c3_signal_table .usr1).2.1 "-1" rfl _ _ _ (fun _ => ⟨[], rfl⟩),
   (c3_signal_table .hup).2.2.2 "hup" rfl _ _ _⟩

/-! ## Claim C4 -/

/-- Executor with one malformed status text (`a`) and one well-formed one
(`b`). -/
def execOneBad : Cmd → Except String (List Char) := fun c =>
  if c.args = ["status", "a"] then .ok "nonsense".data
  else if c.args = ["status", "b"] then .ok "run: b: (pid 5) 7s".data
  else .error "exec: not found"

/-- C4, counterexample: with directories `a` and `b` where `a`'s status
text is malformed, normal mode returns the one good service while debug
mode aborts at `a` with an empty successfully-parsed set — so the two
modes do differ in the set of successfully parsed services when the
malformed line is not the last one. -/
theorem c4_counterexample :
    runitStatus execOneBad (.ok [⟨"a", true⟩, ⟨"b", true⟩]) "/sv" false
      = ([⟨"b", .up, 5, 7000000000⟩], none)
    ∧ runitStatus execOneBad (.ok [⟨"a", true⟩, ⟨"b", true⟩]) "/sv" true
      = ([], some (.parseOutput "a" "nonsense".data))
    ∧ ([] : List Service) ≠ [⟨"b", .up, 5, 7000000000⟩] := by
  decide

/-- C4, amended: over any directory sequence in which exactly one status
text is malformed (command succeeds, grammar does not match) and every
other directory parses successfully, normal mode returns exactly the other
services and no error, while debug mode returns an error carrying the
malformed line's raw text together with only the services preceding the
malformed line — on which the two modes agree.  Both adapters. -/
theorem c4_amended :
    (∀ (ex : Cmd → Except String (List Char)) (base : String)
        (pre post : List String) (bad : String) (f : String → Service)
        (raw : List Char),
      (∀ d ∈ pre ++ post, runitProcessDir ex base true d = .ok (some (f d))) →
      ex (runitCmd base "status" [bad]) = .ok raw →
      runitMatch raw = none →
      statusLoop (runitProcessDir ex base false) (pre ++ bad :: post)
          = ((pre ++ post).map f, none)
        ∧ statusLoop (runitProcessDir ex base true) (pre ++ bad :: post)
          = (pre.map f, some (.parseOutput bad raw)))
    ∧ (∀ (ex : Cmd → Except String (List Char)) (base : String)
        (pre post : List String) (bad : String) (f : String → Service)
        (raw : List Char),
      (∀ d ∈ pre ++ post, s6ProcessDir ex base true d = .ok (some (f d))) →
      ex (s6StatusCmd base bad) = .ok raw →
      s6Match raw = none →
      statusLoop (s6ProcessDir ex base false) (pre ++ bad :: post)
          = ((pre ++ post).map f, none)
        ∧ statusLoop (s6ProcessDir ex base true) (pre ++ bad :: post)
          = (pre.map f, some (.parseOutput bad raw))) := by
  constructor
  · intro ex base pre post bad f raw hall hex hbad
    have hpre : ∀ d ∈ pre, runitProcessDir ex base true d = .ok (some (f d)) :=
      fun d hd => hall d (List.mem_append_left _ hd)
    have hpost : ∀ d ∈ post, runitProcessDir ex base true d = .ok (some (f d)) :=
      fun d hd => hall d (List.mem_append_right _ hd)
    have hbadT : runitProcessDir ex base true bad = .error (.parseOutput bad raw) := by
      unfold runitProcessDir
      rw [hex]
      simp [runitParseLine, hbad]
    have hbadF : runitProcessDir ex base false bad = .ok none := by
      unfold runitProcessDir
      rw [hex]
      simp [runitParseLine, hbad]
    constructor
    · rw [statusLoop_append_ok pre (bad :: post)
        (fun d hd => runitProcessDir_debug_ok (hpre d hd)),
        statusLoop_cons_skip post hbadF,
        statusLoop_all_ok post
          (fun d hd => runitProcessDir_debug_ok (hpost d hd))]
      simp
    · rw [statusLoop_append_ok pre (bad :: post) hpre,
        statusLoop_cons_error post hbadT]
      simp
  · intro ex base pre post bad f raw hall hex hbad
    have hpre : ∀ d ∈ pre, s6ProcessDir ex base true d = .ok (some (f d)) :=
      fun d hd => hall d (List.mem_append_left _ hd)
    have hpost : ∀ d ∈ post, s6ProcessDir ex base true d = .ok (some (f d)) :=
      fun d hd => hall d (List.mem_append_right _ hd)
    have hbadT : s6ProcessDir ex base true bad = .error (.parseOutput bad raw) := by
      unfold s6ProcessDir
      rw [hex]
      simp [s6ParseLine, hbad]
    have hbadF : s6ProcessDir ex base false bad = .ok none := by
      unfold s6ProcessDir
      rw [hex]
      simp [s6ParseLine, hbad]
    constructor
    · rw [statusLoop_append_ok pre (bad :: post)
        (fun d hd => s6ProcessDir_debug_ok (hpre d hd)),
        statusLoop_cons_skip post hbadF,
        statusLoop_all_ok post
          (fun d hd => s6ProcessDir_debug_ok (hpost d hd))]
      simp
    · rw [statusLoop_append_ok pre (bad :: post) hpre,
        statusLoop_cons_error post hbadT]
      simp

/-- Witness for C4 at a concrete input: one malformed directory `a`
followed by one good directory `b`. -/
theorem c4_witness :
    (statusLoop (runitProcessDir execOneBad "/sv" false) ([] ++ "a" :: ["b"])
        = (([] ++ ["b"]).map (fun _ => (⟨"b", .up, 5, 7000000000⟩ : Service)), none))
    ∧ statusLoop (runitProcessDir execOneBad "/sv" true) ([] ++ "a" :: ["b"])
        = (([] : List String).map (fun _ => (⟨"b", .up, 5, 7000000000⟩ : Service)),
            some (.parseOutput "a" "nonsense".data)) :=
  c4_amended.1 execOneBad "/sv" [] ["b"] "a"
    (fun _ => ⟨"b", .up, 5, 7000000000⟩) "nonsense".data
    (by decide) (by decide) (by decide)

/-! ## Claim C5 -/

/-- C5: the well-formed s6 status line `up (pid 123) 45/` yields duration
zero, not the claimed 45 seconds: the pattern captures the bare token `45`
without a unit, which Go's ParseDuration rejects, so normal mode stores
zero and debug mode fails on every such line. -/
theorem c5_duration_dropped :
    s6ParseLine false "web" "up (pid 123) 45/".data
      = .ok (some ⟨"web", .up, 123, 0⟩)
    ∧ s6ParseLine true "web" "up (pid 123) 45/".data
      = .error (.parseDuration "web" "45".data)
    ∧ parseDuration "45".data = none := by
  decide

/-! ## Claim C6 -/

/-- C6: a status line whose optional pid capture is absent but which
otherwise matches the suite's grammar parses, in normal operation, to a
service with pid zero and never to a failure — in both the Runit and the
S6 adapter. -/
theorem c6_pid_absent_zero :
    (∀ (name : String) (raw st dur : List Char),
      runitMatch raw = some (st, none, dur) →
      ∃ s, runitParseLine false name raw = .ok (some s) ∧ s.pid = 0)
    ∧ (∀ (name : String) (raw st detail dur : List Char),
      s6Match raw = some (st, detail, dur) → s6PidFind detail = none →
      ∃ s, s6ParseLine false name raw = .ok (some s) ∧ s.pid = 0) := by
  constructor
  · intro name raw st dur hm
    obtain ⟨v1, h1⟩ := runitStatusOf_false_ok name st
    obtain ⟨v3, h3⟩ := durOfTok_false_ok name dur
    refine ⟨⟨name, v1, 0, v3⟩, ?_, rfl⟩
    simp [runitParseLine, hm, h1, h3, runitPidOf]
  · intro name raw st detail dur hm hf
    obtain ⟨v1, h1⟩ := s6StatusOf_false_ok name st
    obtain ⟨v3, h3⟩ := durOfTok_false_ok name dur
    have h2 : s6PidOf false name detail = .ok 0 := by
      by_cases hd : detail = [] <;> simp [s6PidOf, hd, hf]
    refine ⟨⟨name, v1, 0, v3⟩, ?_, rfl⟩
    simp [s6ParseLine, hm, h1, h2, h3]

/-- Witness for C6: a runit line and an s6 line without pid groups. -/
theorem c6_witness :
    (∃ s, runitParseLine false "x" "down: x: 12s".data = .ok (some s) ∧ s.pid = 0)
    ∧ ∃ s, s6ParseLine false "y" "down (starting) 3/".data = .ok (some s) ∧ s.pid = 0 :=
  ⟨c6_pid_absent_zero.1 "x" "down: x: 12s".data "down".data "12s".data (by decide),
   c6_pid_absent_zero.2 "y" "down (starting) 3/".data "down".data "starting".data
     "3".data (by decide) (by decide)⟩

/-! ## Claim C7 -/

/-- When no open descriptor is a symlink targeting a file named `current`
(and every symlink target resolves), the descriptor scan finds nothing. -/
theorem scanFds_none {links : List FdEntry}
    (h : ∀ l ∈ links, l.isSymlink = true →
      ∃ t, l.target = .ok t ∧ basename t ≠ "current") :
    scanFds links = .ok none := by
  induction links with
  | nil => rfl
  | cons l rest ih =>
    have ihr : scanFds rest = .ok none :=
      ih (fun x hx => h x (List.mem_cons_of_mem l hx))
    by_cases hl : l.isSymlink = true
    · obtain ⟨t, ht, hne⟩ := h l (List.mem_cons_self l rest) hl
      simp [scanFds, hl, ht, hne, ihr]
    · simp [scanFds, hl, ihr]

/-- C7: whenever the status text yields a logger pid but descriptor
introspection finds no descriptor targeting a file named `current`, Runit
Fg fails with the no-log-file error and starts no tail subprocess. -/
theorem c7_fg_log_not_found
    (ex : Cmd → Except String (List Char)) (env : ProcEnv) (base svc : String)
    (txt pidTok : List Char) (pid : Nat) (links : List FdEntry)
    (hex : ex (runitCmd base "status" [pathJoin base svc]) = .ok txt)
    (hlog : runitLoggerFind txt = some pidTok)
    (hpid : atoi pidTok = some pid)
    (hfds : env.fds pid = .ok links)
    (hexe : ∃ e, env.exeOf pid = .ok e)
    (hnone : ∀ l ∈ links, l.isSymlink = true →
      ∃ t, l.target = .ok t ∧ basename t ≠ "current") :
    (runitFg ex env base svc).1 = .error .noLogFile
    ∧ ∀ c ∈ (runitFg ex env base svc).2, c.prog ≠ "tail" := by
  obtain ⟨exe, hexe⟩ := hexe
  have hfind : findLogFile env pid = .ok none := by
    unfold findLogFile
    rw [hexe]
    by_cases hb : basename exe ∈ loggerNames
    · simp [hb, hfds, scanFds_none hnone]
    · simp [hb]
  have hval : runitFg ex env base svc
      = (.error .noLogFile, [runitCmd base "status" [pathJoin base svc]]) := by
    simp only [runitFg, hex, hlog, hpid, hfind]
  rw [hval]
  refine ⟨rfl, ?_⟩
  intro c hc
  have : c = runitCmd base "status" [pathJoin base svc] := by
    simpa using hc
  subst this
  simp [runitCmd]

/-- Concrete /proc surface for the C7 witness: the logger is `svlogd` but
its only symlinked descriptor targets a file named `lock`. -/
def procEnvNoCurrent : ProcEnv :=
  ⟨fun _ => .ok "/usr/sbin/svlogd",
   fun _ => .ok [⟨"4", true, .ok "/var/log/web/lock"⟩]⟩

/-- Executor for the C7 witness: the service status text names logger
pid 99. -/
def execFgW : Cmd → Except String (List Char) := fun c =>
  if c.args = ["status", "/etc/service/web"] then
    .ok "run: /etc/service/web: (pid 12) 5s; log: (pid 99) 5s".data
  else .error "exec: not found"

/-- Witness for C7 at a concrete input. -/
theorem c7_witness :
    (runitFg execFgW procEnvNoCurrent "/etc/service" "web").1 = .error .noLogFile
    ∧ ∀ c ∈ (runitFg execFgW procEnvNoCurrent "/etc/service" "web").2,
        c.prog ≠ "tail" :=
  c7_fg_log_not_found execFgW procEnvNoCurrent "/etc/service" "web"
    "run: /etc/service/web: (pid 12) 5s; log: (pid 99) 5s".data "99".data 99
    [⟨"4", true, .ok "/var/log/web/lock"⟩]
    (by decide) (by decide) (by decide) rfl ⟨"/usr/sbin/svlogd", rfl⟩
    (by
      intro l hl hsym
      have : l = ⟨"4", true, .ok "/var/log/web/lock"⟩ := by simpa using hl
      subst this
      exact ⟨"/var/log/web/lock", rfl, by decide⟩)

/-! ## Claim C8 -/

/-- C8: Runit Rescan always fails with UnsupportedCommand — it never
silently succeeds as a no-op — and issues no subprocess invocation, no
matter what executor is available to it. -/
theorem c8_rescan_unsupported (ex : Cmd → Except String (List Char)) :
    runitRescan ex = (.error .unsupportedCommand, [])
    ∧ ∀ r : List Cmd, runitRescan ex ≠ (.ok (), r) := by
  refine ⟨rfl, ?_⟩
  intro r h
  simp [runitRescan] at h

/-! ## Claim C9 -/

/-- C9: over every executor, base-directory outcome and mode, every
service in the S6 Status() listing has status Up, Down or Unknown — never
Backoff or Disabled (nor Resetting). -/
theorem c9_s6_status_range
    (ex : Cmd → Except String (List Char)) (readDir : Except String (List DirEntry))
    (base : String) (debug : Bool) :
    ∀ s ∈ (s6Status ex readDir base debug).1,
      s.status = .up ∨ s.status = .down ∨ s.status = .unknown := by
  intro s hs
  cases readDir with
  | error e => simp [s6Status] at hs
  | ok entries =>
    obtain ⟨d, hd⟩ :=
      @statusLoop_mem (s6ProcessDir ex base debug) (serviceDirs entries) s hs
    exact s6ProcessDir_status hd

/-- Witness for C9 at a concrete input with one running service. -/
theorem c9_witness :
    (⟨"web", Status.up, 5, 0⟩ : Service).status = .up
    ∨ (⟨"web", Status.up, 5, 0⟩ : Service).status = .down
    ∨ (⟨"web", Status.up, 5, 0⟩ : Service).status = .unknown :=
  c9_s6_status_range (fun _ => .ok "up (pid 5) 0/".data) (.ok [⟨"web", true⟩])
    "/run/service" false ⟨"web", Status.up, 5, 0⟩ (by decide)

/-! ## Claim C10 -/

/-- C10: in normal mode, once the base directory reads successfully,
Status() of both adapters reports no error: every per-service failure
(command failure, grammar mismatch, pid or duration parse failure) is
swallowed, so only the base-directory read can fail the call. -/
theorem c10_normal_mode_no_error
    (ex : Cmd → Except String (List Char)) (base : String)
    (entries : List DirEntry) :
    (runitStatus ex (.ok entries) base false).2 = none
    ∧ (s6Status ex (.ok entries) base false).2 = none :=
  ⟨statusLoop_no_error (fun d => runitProcessDir_false_ok ex base d) (serviceDirs entries),
   statusLoop_no_error (fun d => s6ProcessDir_false_ok ex base d) (serviceDirs entries)⟩

end Svsh

